import Mathlib

/-!
Verification development for the firecracker jailer (jailer/src/main.rs,
jailer/src/env.rs) and the TAP/MACVTAP device handle
(devices/src/virtio/net/tap.rs).

The Rust sources are shallowly embedded:

* External collaborators that the jailer only calls through an interface
  (the instance-id validator, the cgroup builder, the MACVTAP sysfs
  lookup, the kernel syscalls and the filesystem) are modelled as oracle
  functions bundled in `Sys`, `World` and `TapWorld` records.
* Paths produced by `canonicalize` are modelled as lists of path
  components (`List String`); raw CLI strings stay `String`.
* `Env::run` is modelled as a function producing the list of operations
  it performs (`Op`) together with its outcome; reaching the final `exec`
  is modelled as the `Except.ok ()` outcome.
-/

set_option maxRecDepth 10000

/-- Errors of the jailer (main.rs `enum Error`), restricted to the variants
reachable in the embedded code paths.  `io::Error` payloads that the
claims never inspect are dropped; string payloads are kept where a claim
mentions them. -/
inductive JErr where
  | ArgumentParsingMissingValue (arg : String)
  | InvalidInstanceId
  | Canonicalize (path : String)
  | NotAFile (path : List String)
  | NotADirectory (path : List String)
  | ExtractFileName (path : List String)
  | ExecFileName (name : String)
  | Uid (s : String)
  | Gid (s : String)
  | CgroupInvalidParentPath
  | CgroupInvalidVersion (s : String)
  | CgroupFormat (s : String)
  | CgroupInvalidFile (s : String)
  | CgroupHierarchyMissing (s : String)
  | ResLimitArgument (s : String)
  | ResLimitFormat (s : String)
  | ResLimitValue (v : String) (msg : String)
  | Copy
  | Setrlimit
  | SetNetNs
  | MacVTapByName (name : String)
  | OpenDevNull
  | ChdirNewRoot
  | CreateDir (path : String)
  | MknodDev (path : String)
  | MacVTapMknod (name : String)
  | SetSid
  | Dup2
  | Clone
  | FileOpen (path : String)
  | Write (path : String)
  | CStringParsing
  | OsStringParsing (bytes : List Nat)
deriving DecidableEq, Repr

/-- Output channel of a print call.  Rust's `println!` writes to stdout,
`eprintln!` to stderr. -/
inductive Chan where
  | stdout
  | stderr
deriving DecidableEq, Repr

/-- Abstract operations performed by `Env::run`, in the order the code
issues them. -/
inductive Op where
  | copyExec
  | installLimits
  | writeValue (i : Nat)
  | attachPid (i : Nat)
  | joinNetns
  | resolveMacvtap (name : String)
  | openDevNull
  | chroot
  | setupFolder (f : String)
  | mknod (dev : String)
  | warnUrandom (c : Chan)
  | mknodMacvtap (name : String)
  | setsid
  | dup2 (fd : Nat)
  | clone
  | exec
deriving DecidableEq, Repr

/-- The fields of `Env` that drive the control flow of `Env::run`.
The opaque `Vec<Box<dyn Cgroup>>` is represented by its length. -/
structure EnvPlan where
  numCgroups : Nat
  netns : Option String
  daemonize : Bool
  new_pid_ns : Bool
  macvtaps : List String

/-- Success or failure of each external effect `Env::run` performs
(filesystem, syscalls, MACVTAP library).  Cgroup `write_value` /
`attach_pid` are infallible by contract (failure panics), so they carry
no flag here. -/
structure World where
  copyOk : Bool
  limitsOk : Bool
  joinNetnsOk : Bool
  byName : String → Bool
  openDevNullOk : Bool
  chrootOk : Bool
  folderOk : String → Bool
  mknodOk : String → Bool
  macvtapMknodOk : String → Bool
  setsidOk : Bool
  dup2Ok : Nat → Bool

def devNetTun : String := "/dev/net/tun"
def devKvm : String := "/dev/kvm"
def devUrandom : String := "/dev/urandom"

/-- `FOLDER_HIERARCHY` of env.rs. -/
def folderList : List String := ["/", "/dev", "/dev/net", "/run"]

/-- Events a fallible loop over `l` emits: one event per element up to and
including the first failing one. -/
def tryEvents (okOf : α → Bool) (evOf : α → Op) : List α → List Op
  | [] => []
  | a :: as => evOf a :: (if okOf a then tryEvents okOf evOf as else [])

/-- First error of a fallible loop over `l`, if any. -/
def firstErr (okOf : α → Bool) (errOf : α → JErr) : List α → Option JErr
  | [] => none
  | a :: as => if okOf a then firstErr okOf errOf as else some (errOf a)

/-- Trailing events of `Env::run`: the new-PID-namespace clone (when
requested) followed by the final exec. -/
def execTail (e : EnvPlan) : List Op :=
  (if e.new_pid_ns then [Op.clone] else []) ++ [Op.exec]

/-- `Env::run` (env.rs), embedded as a trace of operations plus an
outcome.  `Except.ok ()` means the run reached the final `exec`.
Mirrors the source order on x86_64: copy exec file, install resource
limits, `write_value` for every cgroup, `attach_pid` for every cgroup,
`join_netns` when a netns is configured, resolve every MACVTAP by name,
open `/dev/null` when daemonizing, chroot, set up the jailed folders,
mknod `/dev/net/tun` and `/dev/kvm` (fatal), mknod `/dev/urandom`
(downgraded to a stdout warning via `println!`), mknod each MACVTAP,
daemonize (`setsid` plus three `dup2`), then exec. -/
def Env.run (e : EnvPlan) (w : World) : List Op × Except JErr Unit :=
  let t := [Op.copyExec]
  if ¬ (w.copyOk = true) then (t, .error .Copy) else
  let t := t ++ [Op.installLimits]
  if ¬ (w.limitsOk = true) then (t, .error .Setrlimit) else
  let t := t ++ (List.range e.numCgroups).map Op.writeValue
  let t := t ++ (List.range e.numCgroups).map Op.attachPid
  let t := t ++ (if e.netns.isSome then [Op.joinNetns] else [])
  if (e.netns.isSome && !w.joinNetnsOk) = true then (t, .error .SetNetNs) else
  let t := t ++ tryEvents w.byName Op.resolveMacvtap e.macvtaps
  match firstErr w.byName JErr.MacVTapByName e.macvtaps with
  | some err => (t, .error err)
  | none =>
  let t := t ++ (if e.daemonize then [Op.openDevNull] else [])
  if (e.daemonize && !w.openDevNullOk) = true then (t, .error .OpenDevNull) else
  let t := t ++ [Op.chroot]
  if ¬ (w.chrootOk = true) then (t, .error .ChdirNewRoot) else
  let t := t ++ tryEvents w.folderOk Op.setupFolder folderList
  match firstErr w.folderOk JErr.CreateDir folderList with
  | some err => (t, .error err)
  | none =>
  let t := t ++ [Op.mknod devNetTun]
  if ¬ (w.mknodOk devNetTun = true) then (t, .error (.MknodDev devNetTun)) else
  let t := t ++ [Op.mknod devKvm]
  if ¬ (w.mknodOk devKvm = true) then (t, .error (.MknodDev devKvm)) else
  let t := t ++ [Op.mknod devUrandom]
    ++ (if w.mknodOk devUrandom then [] else [Op.warnUrandom Chan.stdout])
  let t := t ++ tryEvents w.macvtapMknodOk Op.mknodMacvtap e.macvtaps
  match firstErr w.macvtapMknodOk JErr.MacVTapMknod e.macvtaps with
  | some err => (t, .error err)
  | none =>
  if e.daemonize then
    let t := t ++ [Op.setsid]
    if ¬ (w.setsidOk = true) then (t, .error .SetSid) else
    let t := t ++ [Op.dup2 0]
    if ¬ (w.dup2Ok 0 = true) then (t, .error .Dup2) else
    let t := t ++ [Op.dup2 1]
    if ¬ (w.dup2Ok 1 = true) then (t, .error .Dup2) else
    let t := t ++ [Op.dup2 2]
    if ¬ (w.dup2Ok 2 = true) then (t, .error .Dup2) else
    (t ++ execTail e, .ok ())
  else
    (t ++ execTail e, .ok ())

/-- The trace of a successful `Env.run`, written as one nested
concatenation of its phases. -/
def successTrace (e : EnvPlan) (w : World) : List Op :=
  [Op.copyExec] ++
  ([Op.installLimits] ++
  (((List.range e.numCgroups).map Op.writeValue) ++
  (((List.range e.numCgroups).map Op.attachPid) ++
  ((if e.netns.isSome then [Op.joinNetns] else []) ++
  ((e.macvtaps.map Op.resolveMacvtap) ++
  ((if e.daemonize then [Op.openDevNull] else []) ++
  ([Op.chroot] ++
  ((folderList.map Op.setupFolder) ++
  ([Op.mknod devNetTun, Op.mknod devKvm, Op.mknod devUrandom] ++
  ((if w.mknodOk devUrandom then [] else [Op.warnUrandom Chan.stdout]) ++
  ((e.macvtaps.map Op.mknodMacvtap) ++
  ((if e.daemonize then [Op.setsid, Op.dup2 0, Op.dup2 1, Op.dup2 2] else []) ++
  ((if e.new_pid_ns then [Op.clone] else []) ++
  [Op.exec])))))))))))))

theorem firstErr_none_iff {okOf : α → Bool} {errOf : α → JErr} (l : List α) :
    firstErr okOf errOf l = none ↔ ∀ a ∈ l, okOf a = true := by
  induction l with
  | nil => simp [firstErr]
  | cons a as ih =>
    by_cases h : okOf a = true <;> simp [firstErr, h, ih]

theorem tryEvents_eq_map (okOf : α → Bool) (evOf : α → Op) (l : List α)
    (h : ∀ a ∈ l, okOf a = true) : tryEvents okOf evOf l = l.map evOf := by
  induction l with
  | nil => rfl
  | cons a as ih =>
    have ha := h a (List.mem_cons_self a as)
    simp [tryEvents, ha]
    exact ih (fun x hx => h x (List.mem_cons_of_mem a hx))

/-- When a run succeeds, the emitted trace is exactly `successTrace`. -/
theorem run_ok_trace (e : EnvPlan) (w : World)
    (h : (Env.run e w).2 = Except.ok ()) :
    (Env.run e w).1 = successTrace e w := by
  by_cases h1 : w.copyOk = true
  case neg => simp [Env.run, h1] at h
  by_cases h2 : w.limitsOk = true
  case neg => simp [Env.run, h1, h2] at h
  by_cases h3 : (e.netns.isSome && !w.joinNetnsOk) = true
  case pos => simp [Env.run, h1, h2, h3] at h
  rcases h4 : firstErr w.byName JErr.MacVTapByName e.macvtaps with _ | err
  on_goal 2 => simp [Env.run, h1, h2, h3, h4] at h
  by_cases h5 : (e.daemonize && !w.openDevNullOk) = true
  case pos => simp [Env.run, h1, h2, h3, h4, h5] at h
  by_cases h6 : w.chrootOk = true
  case neg => simp [Env.run, h1, h2, h3, h4, h5, h6] at h
  rcases h7 : firstErr w.folderOk JErr.CreateDir folderList with _ | err
  on_goal 2 => simp [Env.run, h1, h2, h3, h4, h5, h6, h7] at h
  by_cases h8 : w.mknodOk devNetTun = true
  case neg => simp [Env.run, h1, h2, h3, h4, h5, h6, h7, h8] at h
  by_cases h9 : w.mknodOk devKvm = true
  case neg => simp [Env.run, h1, h2, h3, h4, h5, h6, h7, h8, h9] at h
  rcases h10 : firstErr w.macvtapMknodOk JErr.MacVTapMknod e.macvtaps with _ | err
  on_goal 2 => simp [Env.run, h1, h2, h3, h4, h5, h6, h7, h8, h9, h10] at h
  have hmv := tryEvents_eq_map w.byName Op.resolveMacvtap
    e.macvtaps ((firstErr_none_iff e.macvtaps).1 h4)
  have hfo := tryEvents_eq_map w.folderOk Op.setupFolder
    folderList ((firstErr_none_iff folderList).1 h7)
  have hmk := tryEvents_eq_map w.macvtapMknodOk Op.mknodMacvtap
    e.macvtaps ((firstErr_none_iff e.macvtaps).1 h10)
  by_cases hd : e.daemonize = true
  case pos =>
    have hdn : w.openDevNullOk = true := by simpa [hd] using h5
    by_cases h11 : w.setsidOk = true
    case neg => simp [Env.run, h1, h2, h3, h4, h5, h6, h7, h8, h9, h10, hd, hdn, h11] at h
    by_cases h12 : w.dup2Ok 0 = true
    case neg =>
      simp [Env.run, h1, h2, h3, h4, h5, h6, h7, h8, h9, h10, hd, hdn, h11, h12] at h
    by_cases h13 : w.dup2Ok 1 = true
    case neg =>
      simp [Env.run, h1, h2, h3, h4, h5, h6, h7, h8, h9, h10, hd, hdn, h11, h12, h13] at h
    by_cases h14 : w.dup2Ok 2 = true
    case neg =>
      simp [Env.run, h1, h2, h3, h4, h5, h6, h7, h8, h9, h10, hd, hdn,
        h11, h12, h13, h14] at h
    simp [Env.run, successTrace, execTail, h1, h2, h3, h4, h5, h6, h7, h8, h9, h10,
      hd, hdn, h11, h12, h13, h14, hmv, hfo, hmk]
  case neg =>
    simp [Env.run, successTrace, execTail, h1, h2, h3, h4, h5, h6, h7, h8, h9, h10,
      hd, hmv, hfo, hmk]

/-- Phase number of an operation in the master run order (§4.G). -/
def stage : Op → Nat
  | .copyExec => 0
  | .installLimits => 1
  | .writeValue _ => 2
  | .attachPid _ => 3
  | .joinNetns => 4
  | .resolveMacvtap _ => 5
  | .openDevNull => 6
  | .chroot => 7
  | .setupFolder _ => 8
  | .mknod _ => 9
  | .warnUrandom _ => 10
  | .mknodMacvtap _ => 11
  | .setsid => 12
  | .dup2 _ => 13
  | .clone => 14
  | .exec => 15

/-- Every `p`-operation occurs strictly before every `q`-operation in `l`. -/
def OpPrecedes (p q : Op → Bool) (l : List Op) : Prop :=
  ∀ i j, (hi : i < l.length) → (hj : j < l.length) →
    p (l.get ⟨i, hi⟩) = true → q (l.get ⟨j, hj⟩) = true → i < j

/-- Trace monotone in stages. -/
def StageMono (l : List Op) : Prop :=
  List.Pairwise (fun a b => stage a ≤ stage b) l

theorem stageMono_append {l₁ l₂ : List Op} (c : Nat)
    (h₁ : StageMono l₁) (h₂ : StageMono l₂)
    (hub : ∀ x ∈ l₁, stage x ≤ c) (hlb : ∀ y ∈ l₂, c ≤ stage y) :
    StageMono (l₁ ++ l₂) := by
  rw [StageMono, List.pairwise_append]
  exact ⟨h₁, h₂, fun a ha b hb => le_trans (hub a ha) (hlb b hb)⟩

theorem stageMono_of_const {l : List Op} {c : Nat}
    (h : ∀ x ∈ l, stage x = c) : StageMono l := by
  induction l with
  | nil => exact List.Pairwise.nil
  | cons a t ih =>
    refine List.Pairwise.cons (fun y hy => ?_)
      (ih (fun x hx => h x (List.mem_cons_of_mem a hx)))
    rw [h a (List.mem_cons_self a t), h y (List.mem_cons_of_mem a hy)]

theorem stage_const_map (f : α → Op) (c : Nat) (hf : ∀ a, stage (f a) = c)
    (l : List α) : ∀ x ∈ l.map f, stage x = c := by
  intro x hx
  obtain ⟨a, _, rfl⟩ := List.mem_map.1 hx
  exact hf a

theorem stage_const_ite (l : List Op) (c : Nat) (b : Bool)
    (h : ∀ x ∈ l, stage x = c) :
    ∀ x ∈ (if b then l else ([] : List Op)), stage x = c := by
  cases b <;> simp_all


theorem stageStep {seg rest : List Op} {c d : Nat} (hcd : c ≤ d)
    (hseg : StageMono seg) (hsegb : ∀ x ∈ seg, c ≤ stage x ∧ stage x ≤ d)
    (hrest : StageMono rest) (hrestlb : ∀ y ∈ rest, d ≤ stage y) :
    StageMono (seg ++ rest) ∧ ∀ y ∈ seg ++ rest, c ≤ stage y := by
  constructor
  · exact stageMono_append d hseg hrest (fun x hx => (hsegb x hx).2) hrestlb
  · intro y hy
    rcases List.mem_append.1 hy with hy | hy
    · exact (hsegb y hy).1
    · exact le_trans hcd (hrestlb y hy)

theorem seg_const (l : List Op) (c : Nat) (h : ∀ x ∈ l, stage x = c) :
    StageMono l ∧ ∀ x ∈ l, c ≤ stage x ∧ stage x ≤ c :=
  ⟨stageMono_of_const h, fun x hx => ⟨le_of_eq (h x hx).symm, le_of_eq (h x hx)⟩⟩

theorem seg_weaken {l : List Op} {c d : Nat} (hcd : c ≤ d)
    (h : ∀ x ∈ l, c ≤ stage x ∧ stage x ≤ c) :
    ∀ x ∈ l, c ≤ stage x ∧ stage x ≤ d :=
  fun x hx => ⟨(h x hx).1, le_trans (h x hx).2 hcd⟩

/-- The success trace of `Env.run` is monotone in stages. -/
theorem stageMono_successTrace (e : EnvPlan) (w : World) :
    StageMono (successTrace e w) := by
  have h15 := seg_const [Op.exec] 15 (by intro x hx; fin_cases hx; rfl)
  have h14 := seg_const _ 14
    (stage_const_ite [Op.clone] 14 e.new_pid_ns (by intro x hx; fin_cases hx; rfl))
  have st14 := stageStep (show (14:Nat) ≤ 15 by norm_num) h14.1
    (seg_weaken (by norm_num) h14.2) h15.1 (fun y hy => (h15.2 y hy).1)
  have m12 : StageMono (if e.daemonize
      then [Op.setsid, Op.dup2 0, Op.dup2 1, Op.dup2 2] else ([] : List Op)) := by
    cases e.daemonize
    · exact List.Pairwise.nil
    · show List.Pairwise (fun a b => stage a ≤ stage b)
        [Op.setsid, Op.dup2 0, Op.dup2 1, Op.dup2 2]
      decide
  have b12 : ∀ x ∈ (if e.daemonize
      then [Op.setsid, Op.dup2 0, Op.dup2 1, Op.dup2 2] else ([] : List Op)),
      12 ≤ stage x ∧ stage x ≤ 14 := by
    cases e.daemonize
    · intro x hx
      exact absurd (hx : x ∈ ([] : List Op)) (List.not_mem_nil x)
    · intro x hx
      have hx2 : x ∈ [Op.setsid, Op.dup2 0, Op.dup2 1, Op.dup2 2] := hx
      fin_cases hx2 <;> exact ⟨by decide, by decide⟩
  have st12 := stageStep (show (12:Nat) ≤ 14 by norm_num) m12 b12 st14.1 st14.2
  have h11 := seg_const _ 11
    (stage_const_map Op.mknodMacvtap 11 (fun _ => rfl) e.macvtaps)
  have st11 := stageStep (show (11:Nat) ≤ 12 by norm_num) h11.1
    (seg_weaken (by norm_num) h11.2) st12.1 st12.2
  have h10 : ∀ x ∈ (if w.mknodOk devUrandom then ([] : List Op)
      else [Op.warnUrandom Chan.stdout]), stage x = 10 := by
    cases w.mknodOk devUrandom
    · intro x hx
      have hx2 : x ∈ [Op.warnUrandom Chan.stdout] := hx
      fin_cases hx2; rfl
    · intro x hx
      exact absurd (hx : x ∈ ([] : List Op)) (List.not_mem_nil x)
  have h10c := seg_const _ 10 h10
  have st10 := stageStep (show (10:Nat) ≤ 11 by norm_num) h10c.1
    (seg_weaken (by norm_num) h10c.2) st11.1 st11.2
  have h9 := seg_const
    [Op.mknod devNetTun, Op.mknod devKvm, Op.mknod devUrandom] 9
    (by intro x hx; fin_cases hx <;> rfl)
  have st9 := stageStep (show (9:Nat) ≤ 10 by norm_num) h9.1
    (seg_weaken (by norm_num) h9.2) st10.1 st10.2
  have h8 := seg_const _ 8
    (stage_const_map Op.setupFolder 8 (fun _ => rfl) folderList)
  have st8 := stageStep (show (8:Nat) ≤ 9 by norm_num) h8.1
    (seg_weaken (by norm_num) h8.2) st9.1 st9.2
  have h7 := seg_const [Op.chroot] 7 (by intro x hx; fin_cases hx; rfl)
  have st7 := stageStep (show (7:Nat) ≤ 8 by norm_num) h7.1
    (seg_weaken (by norm_num) h7.2) st8.1 st8.2
  have h6 := seg_const _ 6
    (stage_const_ite [Op.openDevNull] 6 e.daemonize (by intro x hx; fin_cases hx; rfl))
  have st6 := stageStep (show (6:Nat) ≤ 7 by norm_num) h6.1
    (seg_weaken (by norm_num) h6.2) st7.1 st7.2
  have h5 := seg_const _ 5
    (stage_const_map Op.resolveMacvtap 5 (fun _ => rfl) e.macvtaps)
  have st5 := stageStep (show (5:Nat) ≤ 6 by norm_num) h5.1
    (seg_weaken (by norm_num) h5.2) st6.1 st6.2
  have h4 := seg_const _ 4
    (stage_const_ite [Op.joinNetns] 4 e.netns.isSome (by intro x hx; fin_cases hx; rfl))
  have st4 := stageStep (show (4:Nat) ≤ 5 by norm_num) h4.1
    (seg_weaken (by norm_num) h4.2) st5.1 st5.2
  have h3 := seg_const _ 3
    (stage_const_map Op.attachPid 3 (fun _ => rfl) (List.range e.numCgroups))
  have st3 := stageStep (show (3:Nat) ≤ 4 by norm_num) h3.1
    (seg_weaken (by norm_num) h3.2) st4.1 st4.2
  have h2 := seg_const _ 2
    (stage_const_map Op.writeValue 2 (fun _ => rfl) (List.range e.numCgroups))
  have st2 := stageStep (show (2:Nat) ≤ 3 by norm_num) h2.1
    (seg_weaken (by norm_num) h2.2) st3.1 st3.2
  have h1 := seg_const [Op.installLimits] 1
    (by intro x hx; fin_cases hx; rfl)
  have st1 := stageStep (show (1:Nat) ≤ 2 by norm_num) h1.1
    (seg_weaken (by norm_num) h1.2) st2.1 st2.2
  have h0 := seg_const [Op.copyExec] 0
    (by intro x hx; fin_cases hx; rfl)
  have st0 := stageStep (show (0:Nat) ≤ 1 by norm_num) h0.1
    (seg_weaken (by norm_num) h0.2) st1.1 st1.2
  exact st0.1

theorem precedes_of_stage {p q : Op → Bool} {l : List Op} (a : Nat)
    (hmono : StageMono l)
    (hp : ∀ x, p x = true → stage x ≤ a) (hq : ∀ x, q x = true → a < stage x) :
    OpPrecedes p q l := by
  intro i j hi hj hpi hqj
  by_contra hij
  push_neg at hij
  have hle : stage (l.get ⟨j, hj⟩) ≤ stage (l.get ⟨i, hi⟩) := by
    rcases Nat.lt_or_ge j i with hji | hji
    · exact List.pairwise_iff_get.1 hmono ⟨j, hj⟩ ⟨i, hi⟩ hji
    · have : i = j := le_antisymm hji hij
      subst this
      exact le_refl _
  have h1 := hp _ hpi
  have h2 := hq _ hqj
  omega

def isWriteValue : Op → Bool
  | .writeValue _ => true
  | _ => false

def isAttachPid : Op → Bool
  | .attachPid _ => true
  | _ => false

def isJoinNetns : Op → Bool
  | .joinNetns => true
  | _ => false

def isResolveMacvtap : Op → Bool
  | .resolveMacvtap _ => true
  | _ => false

def isOpenDevNull : Op → Bool
  | .openDevNull => true
  | _ => false

def isChroot : Op → Bool
  | .chroot => true
  | _ => false

def isSetupFolder : Op → Bool
  | .setupFolder _ => true
  | _ => false

/-- Any mknod issued inside the jail: the fixed device nodes and the
per-MACVTAP nodes. -/
def isMknodAny : Op → Bool
  | .mknod _ => true
  | .mknodMacvtap _ => true
  | _ => false

/-- The daemonization steps after chroot: `setsid` and the `dup2` calls. -/
def isDaemonizeOp : Op → Bool
  | .setsid => true
  | .dup2 _ => true
  | _ => false

theorem successTrace_getLast (e : EnvPlan) (w : World) :
    (successTrace e w).getLast? = some Op.exec := by
  unfold successTrace
  repeat rw [← List.append_assoc]
  exact List.getLast?_concat _

theorem stage_ub_writeValue : ∀ x, isWriteValue x = true → stage x ≤ 2 := by
  intro x hx; cases x <;> simp_all [isWriteValue, stage]

theorem stage_lb_attachPid : ∀ x, isAttachPid x = true → 2 < stage x := by
  intro x hx; cases x <;> simp_all [isAttachPid, stage]

theorem stage_ub_joinNetns : ∀ x, isJoinNetns x = true → stage x ≤ 4 := by
  intro x hx; cases x <;> simp_all [isJoinNetns, stage]

theorem stage_lb_resolveMacvtap : ∀ x, isResolveMacvtap x = true → 4 < stage x := by
  intro x hx; cases x <;> simp_all [isResolveMacvtap, stage]

theorem stage_ub_openDevNull : ∀ x, isOpenDevNull x = true → stage x ≤ 6 := by
  intro x hx; cases x <;> simp_all [isOpenDevNull, stage]

theorem stage_lb_chroot : ∀ x, isChroot x = true → 6 < stage x := by
  intro x hx; cases x <;> simp_all [isChroot, stage]

theorem stage_ub_chroot : ∀ x, isChroot x = true → stage x ≤ 7 := by
  intro x hx; cases x <;> simp_all [isChroot, stage]

theorem stage_lb_setupFolder : ∀ x, isSetupFolder x = true → 7 < stage x := by
  intro x hx; cases x <;> simp_all [isSetupFolder, stage]

theorem stage_lb_mknodAny : ∀ x, isMknodAny x = true → 7 < stage x := by
  intro x hx; cases x <;> simp_all [isMknodAny, stage]

theorem stage_ub_mknodAny : ∀ x, isMknodAny x = true → stage x ≤ 11 := by
  intro x hx; cases x <;> simp_all [isMknodAny, stage]

theorem stage_lb_daemonizeOp : ∀ x, isDaemonizeOp x = true → 11 < stage x := by
  intro x hx; cases x <;> simp_all [isDaemonizeOp, stage]

/-- C1: on the success path of `Env::run` the operations occur in the
master order: every cgroup `write_value` strictly precedes every
`attach_pid`; `join_netns` precedes every MACVTAP resolution; the
`/dev/null` open precedes `chroot`; `chroot` precedes every jail-folder
creation and every mknod; the daemonization `setsid`/`dup2` steps come
after all mknod operations; and exec is the last step. -/
theorem run_master_order (e : EnvPlan) (w : World)
    (h : (Env.run e w).2 = Except.ok ()) :
    OpPrecedes isWriteValue isAttachPid (Env.run e w).1 ∧
    OpPrecedes isJoinNetns isResolveMacvtap (Env.run e w).1 ∧
    OpPrecedes isOpenDevNull isChroot (Env.run e w).1 ∧
    OpPrecedes isChroot isSetupFolder (Env.run e w).1 ∧
    OpPrecedes isChroot isMknodAny (Env.run e w).1 ∧
    OpPrecedes isMknodAny isDaemonizeOp (Env.run e w).1 ∧
    (Env.run e w).1.getLast? = some Op.exec := by
  rw [run_ok_trace e w h]
  have hmono := stageMono_successTrace e w
  exact ⟨precedes_of_stage 2 hmono stage_ub_writeValue stage_lb_attachPid,
    precedes_of_stage 4 hmono stage_ub_joinNetns stage_lb_resolveMacvtap,
    precedes_of_stage 6 hmono stage_ub_openDevNull stage_lb_chroot,
    precedes_of_stage 7 hmono stage_ub_chroot stage_lb_setupFolder,
    precedes_of_stage 7 hmono stage_ub_chroot stage_lb_mknodAny,
    precedes_of_stage 11 hmono stage_ub_mknodAny stage_lb_daemonizeOp,
    successTrace_getLast e w⟩

/-- A concrete plan exercising every optional feature of `Env::run`. -/
def demoPlan : EnvPlan :=
  { numCgroups := 2, netns := some "zzzns", daemonize := true,
    new_pid_ns := true, macvtaps := ["vtap0", "vtap1"] }

/-- A world in which every external operation succeeds. -/
def allOkWorld : World :=
  { copyOk := true, limitsOk := true, joinNetnsOk := true,
    byName := fun _ => true, openDevNullOk := true, chrootOk := true,
    folderOk := fun _ => true, mknodOk := fun _ => true,
    macvtapMknodOk := fun _ => true, setsidOk := true,
    dup2Ok := fun _ => true }

theorem run_master_order_witness :
    OpPrecedes isWriteValue isAttachPid (Env.run demoPlan allOkWorld).1 ∧
    OpPrecedes isJoinNetns isResolveMacvtap (Env.run demoPlan allOkWorld).1 ∧
    OpPrecedes isOpenDevNull isChroot (Env.run demoPlan allOkWorld).1 ∧
    OpPrecedes isChroot isSetupFolder (Env.run demoPlan allOkWorld).1 ∧
    OpPrecedes isChroot isMknodAny (Env.run demoPlan allOkWorld).1 ∧
    OpPrecedes isMknodAny isDaemonizeOp (Env.run demoPlan allOkWorld).1 ∧
    (Env.run demoPlan allOkWorld).1.getLast? = some Op.exec :=
  run_master_order demoPlan allOkWorld (by rfl)

/-- A world in which every operation succeeds except the mknod of
`/dev/urandom`. -/
def urandomFailWorld : World :=
  { allOkWorld with mknodOk := fun d => d != devUrandom }

/-- C7 counterexample: with only the `/dev/urandom` mknod failing, the run
still reaches exec and the warning it prints goes to stdout (the code
uses `println!`), not to stderr as the claim states. -/
theorem urandom_warn_channel_counterexample :
    (Env.run demoPlan urandomFailWorld).2 = Except.ok () ∧
    Op.warnUrandom Chan.stdout ∈ (Env.run demoPlan urandomFailWorld).1 ∧
    Op.warnUrandom Chan.stderr ∉ (Env.run demoPlan urandomFailWorld).1 := by
  refine ⟨rfl, by decide, by decide⟩

/-- C7 (amended): a failure of `mknod_and_own_dev` for `/dev/urandom` is
not fatal — it is downgraded to a warning printed to stdout and the run
continues to exec — whereas the same failure for `/dev/net/tun` or
`/dev/kvm` aborts the run with `MknodDev`. -/
theorem urandom_best_effort :
    (∀ (e : EnvPlan) (w : World),
      w.copyOk = true → w.limitsOk = true → w.joinNetnsOk = true →
      (∀ s, w.byName s = true) → w.openDevNullOk = true → w.chrootOk = true →
      (∀ f, w.folderOk f = true) → w.mknodOk devNetTun = true →
      w.mknodOk devKvm = true → (∀ s, w.macvtapMknodOk s = true) →
      w.setsidOk = true → (∀ n, w.dup2Ok n = true) →
      w.mknodOk devUrandom = false →
      (Env.run e w).2 = Except.ok () ∧
        Op.warnUrandom Chan.stdout ∈ (Env.run e w).1) ∧
    (∀ (e : EnvPlan) (w : World),
      w.copyOk = true → w.limitsOk = true → w.joinNetnsOk = true →
      (∀ s, w.byName s = true) → w.openDevNullOk = true → w.chrootOk = true →
      (∀ f, w.folderOk f = true) → w.mknodOk devNetTun = false →
      (Env.run e w).2 = Except.error (JErr.MknodDev devNetTun)) ∧
    (∀ (e : EnvPlan) (w : World),
      w.copyOk = true → w.limitsOk = true → w.joinNetnsOk = true →
      (∀ s, w.byName s = true) → w.openDevNullOk = true → w.chrootOk = true →
      (∀ f, w.folderOk f = true) → w.mknodOk devNetTun = true →
      w.mknodOk devKvm = false →
      (Env.run e w).2 = Except.error (JErr.MknodDev devKvm)) := by
  refine ⟨?_, ?_, ?_⟩
  · intro e w h1 h2 h3 h4 h5 h6 h7 h8 h9 h10 h11 h12 hu
    have hb : firstErr w.byName JErr.MacVTapByName e.macvtaps = none :=
      (firstErr_none_iff _).2 (fun a _ => h4 a)
    have hf : firstErr w.folderOk JErr.CreateDir folderList = none :=
      (firstErr_none_iff _).2 (fun a _ => h7 a)
    have hm : firstErr w.macvtapMknodOk JErr.MacVTapMknod e.macvtaps = none :=
      (firstErr_none_iff _).2 (fun a _ => h10 a)
    constructor
    · cases hd : e.daemonize <;>
        simp [Env.run, h1, h2, h3, h5, h6, h8, h9, h11, hb, hf, hm, hd,
          h12 0, h12 1, h12 2]
    · cases hd : e.daemonize <;>
        simp [Env.run, h1, h2, h3, h5, h6, h8, h9, h11, hb, hf, hm, hd, hu,
          h12 0, h12 1, h12 2, tryEvents, List.mem_append]
  · intro e w h1 h2 h3 h4 h5 h6 h7 h8
    have hb : firstErr w.byName JErr.MacVTapByName e.macvtaps = none :=
      (firstErr_none_iff _).2 (fun a _ => h4 a)
    have hf : firstErr w.folderOk JErr.CreateDir folderList = none :=
      (firstErr_none_iff _).2 (fun a _ => h7 a)
    simp [Env.run, h1, h2, h3, h5, h6, h8, hb, hf]
  · intro e w h1 h2 h3 h4 h5 h6 h7 h8 h9
    have hb : firstErr w.byName JErr.MacVTapByName e.macvtaps = none :=
      (firstErr_none_iff _).2 (fun a _ => h4 a)
    have hf : firstErr w.folderOk JErr.CreateDir folderList = none :=
      (firstErr_none_iff _).2 (fun a _ => h7 a)
    simp [Env.run, h1, h2, h3, h5, h6, h8, h9, hb, hf]

theorem urandom_best_effort_witness :
    (Env.run demoPlan urandomFailWorld).2 = Except.ok () ∧
      Op.warnUrandom Chan.stdout ∈ (Env.run demoPlan urandomFailWorld).1 :=
  urandom_best_effort.1 demoPlan urandomFailWorld rfl rfl rfl (fun _ => rfl)
    rfl rfl (fun _ => rfl) (by decide) (by decide) (fun _ => rfl) rfl
    (fun _ => rfl) (by decide)

instance {ε α : Type} [DecidableEq ε] [DecidableEq α] :
    DecidableEq (Except ε α) := fun a b =>
  match a, b with
  | .error e, .error f =>
    if h : e = f then isTrue (by rw [h])
    else isFalse (fun hh => by cases hh; exact h rfl)
  | .ok x, .ok y =>
    if h : x = y then isTrue (by rw [h])
    else isFalse (fun hh => by cases hh; exact h rfl)
  | .error _, .ok _ => isFalse (fun hh => by cases hh)
  | .ok _, .error _ => isFalse (fun hh => by cases hh)

/-- `str::split(c)` on a character list: split at every occurrence of
`c`; n separators yield n+1 (possibly empty) pieces. -/
def splitOnChar (c : Char) : List Char → List (List Char)
  | [] => [[]]
  | x :: xs =>
    let r := splitOnChar c xs
    if x = c then [] :: r
    else
      match r with
      | [] => [[x]]
      | h :: t => (x :: h) :: t

/-- Rust `str::split(c)` collected into strings. -/
def rsSplit (s : String) (c : Char) : List String :=
  (splitOnChar c s.toList).map String.mk

/-- Split a character list at the first occurrence of `c`, if any. -/
def breakAtChar (c : Char) : List Char → Option (List Char × List Char)
  | [] => none
  | x :: xs =>
    if x = c then some ([], xs)
    else
      match breakAtChar c xs with
      | none => none
      | some (a, b) => some (x :: a, b)

def u8Bound : Nat := 2 ^ 8
def u32Bound : Nat := 2 ^ 32
def u64Bound : Nat := 2 ^ 64

/-- Rust `str::parse::<uN>` for an unsigned type with exclusive upper
bound `bound`: an optional leading `+`, then one or more ASCII digits;
the error strings match `core::num::ParseIntError`'s `Display`. -/
def rustParseUInt (bound : Nat) (s : String) : Except String Nat :=
  match s.toList with
  | [] => .error "cannot parse integer from empty string"
  | cs =>
    let ds := if cs.head? = some '+' then cs.tail else cs
    if ds.isEmpty then .error "invalid digit found in string"
    else if ds.all Char.isDigit then
      let v := ds.foldl (fun acc c => acc * 10 + (c.toNat - 48)) 0
      if v < bound then .ok v
      else .error "number too large to fit in target type"
    else .error "invalid digit found in string"

/-- Rust `str::split_once(c)`: split at the first occurrence of `c`. -/
def splitOnce (s : String) (c : Char) : Option (String × String) :=
  match breakAtChar c s.toList with
  | none => none
  | some (a, b) => some (String.mk a, String.mk b)

/-- Rust `str::contains(pat)` for a literal pattern. -/
def containsSub (s pat : String) : Bool :=
  (List.range (s.toList.length + 1)).any
    (fun i => pat.toList.isPrefixOf (s.toList.drop i))

/-- `std::path::Component`, restricted to the variants the jailer
inspects. -/
inductive PComp where
  | rootDir
  | curDir
  | parentDir
  | normal (s : String)
deriving DecidableEq, Repr

/-- One non-empty path segment as a component. -/
def segComp (seg : String) : PComp :=
  if seg = ".." then .parentDir else .normal seg

/-- `Path::components()` of a path string, following Rust's
normalization: empty segments collapse, interior `.` segments are
dropped, a leading `.` of a relative path is kept as `CurDir`, a leading
`/` yields `RootDir`. -/
def pathComponents (s : String) : List PComp :=
  let segs := (rsSplit s '/').filter (fun seg => seg ≠ "")
  if s.toList.head? = some '/' then
    PComp.rootDir :: (segs.filter (fun seg => seg ≠ ".")).map segComp
  else
    match segs with
    | [] => []
    | first :: rest =>
      (if first = "." then [PComp.curDir] else [segComp first]) ++
        (rest.filter (fun seg => seg ≠ ".")).map segComp

/-- The check env.rs applies to cgroup files and the parent cgroup path:
any `.`, `..` or root component is rejected. -/
def hasBadComponent (s : String) : Bool :=
  (pathComponents s).any (fun c =>
    c == PComp.curDir || c == PComp.parentDir || c == PComp.rootDir)

/-- Modelled from the spec: `ResourceLimits` lives in
jailer/src/resource_limits.rs, which is not part of the provided
sources.  Per §4.H it is a mapping from `fsize` / `no-file` to u64
values with `set_file_size` / `set_no_file` setters and an empty
default. -/
structure ResourceLimits where
  file_size : Option Nat := none
  no_file : Option Nat := none
deriving DecidableEq, Repr

/-- Modelled from the spec: the resource name constants `FSIZE_ARG` and
`NO_FILE_ARG` of resource_limits.rs (§4.H, §6.1). -/
def FSIZE_ARG : String := "fsize"
def NO_FILE_ARG : String := "no-file"

/-- `Env::parse_resource_limits` (env.rs): for each `name=value`
argument, split at the first `=` (else `ResLimitFormat`), parse the
value as u64 (else `ResLimitValue`), then dispatch on the name (unknown
names give `ResLimitArgument`). -/
def Env.parse_resource_limits (rl : ResourceLimits) :
    List String → Except JErr ResourceLimits
  | [] => .ok rl
  | arg :: rest =>
    match splitOnce arg '=' with
    | none => .error (.ResLimitFormat arg)
    | some (name, value) =>
      match rustParseUInt u64Bound value with
      | .error msg => .error (.ResLimitValue value msg)
      | .ok v =>
        if name = FSIZE_ARG then
          Env.parse_resource_limits { rl with file_size := some v } rest
        else if name = NO_FILE_ARG then
          Env.parse_resource_limits { rl with no_file := some v } rest
        else .error (.ResLimitArgument name)

/-- The per-argument checks of the `--cgroup` loop in `Env::new`
(env.rs): `cg.split('=')` must yield exactly two parts with a non-empty
second part, and the first part must contain no `.`, `..` or root
component. -/
def checkCgroupArg (cg : String) : Except JErr (String × String) :=
  let aux := rsSplit cg '='
  if aux.length ≠ 2 ∨ aux.getD 1 "" = "" then .error (.CgroupFormat cg)
  else if hasBadComponent (aux.getD 0 "") then .error (.CgroupInvalidFile cg)
  else .ok (aux.getD 0 "", aux.getD 1 "")

/-- External interfaces consumed by `Env::new` (the `utils` crate
validator, the filesystem, and the cgroup builder of
jailer/src/cgroup.rs), modelled as oracles.  Canonical paths are lists
of components; `canonicalize` returning `none` models an io error. -/
structure Sys where
  validate_instance_id : String → Bool
  canonicalize : String → Option (List String)
  is_file : List String → Bool
  is_dir : List String → Bool
  cgroup_builder_new : Nat → Option JErr
  new_cgroup : String → String → String → String → Option JErr

/-- The `--cgroup` loop of `Env::new`: check each argument, then build
the cgroup through the external builder; the first failure aborts. -/
def buildCgroups (sys : Sys) (id parent : String) :
    List String → Except JErr (List (String × String))
  | [] => .ok []
  | cg :: rest =>
    match checkCgroupArg cg with
    | .error e => .error e
    | .ok (file, value) =>
      match sys.new_cgroup file value id parent with
      | some e => .error e
      | none =>
        match buildCgroups sys id parent rest with
        | .error e => .error e
        | .ok l => .ok ((file, value) :: l)

/-- The cgroup phase of `Env::new`: when `--cgroup` was given, the
builder is created once (propagating its error) and the loop runs. -/
def cgroupsStage (sys : Sys) (cgroup_ver : Nat) (id parent : String) :
    Option (List String) → Except JErr (List (String × String))
  | none => .ok []
  | some cgs =>
    match sys.cgroup_builder_new cgroup_ver with
    | some e => .error e
    | none => buildCgroups sys id parent cgs

/-- The resource-limit phase of `Env::new`. -/
def limitsStage : Option (List String) → Except JErr ResourceLimits
  | none => .ok {}
  | some rls => Env.parse_resource_limits {} rls

/-- The argument lookups `Env::new` performs (`single_value`,
`multiple_values`, `flag_present`, `extra_args`). -/
structure Args where
  id : Option String
  exec_file : Option String
  chroot_base_dir : Option String
  uid : Option String
  gid : Option String
  netns : Option String
  daemonize : Bool
  new_pid_ns : Bool
  parent_cgroup : Option String
  cgroup_version : Option String
  cgroup : Option (List String)
  resource_limit : Option (List String)
  macvtap : Option (List String)
  extra_args : List String

/-- The validated jail plan (struct `Env` of env.rs).  The opaque
`Box<dyn Cgroup>` entries are recorded as the `(file, value)` pairs they
were built from. -/
structure Env where
  id : String
  chroot_dir : List String
  exec_file_path : List String
  uid : Nat
  gid : Nat
  netns : Option String
  daemonize : Bool
  new_pid_ns : Bool
  start_time_us : Nat
  start_time_cpu_us : Nat
  jailer_cpu_time_us : Nat
  extra_args : List String
  cgroups : List (String × String)
  resource_limits : ResourceLimits
  macvtaps : List String
deriving DecidableEq, Repr

/-- `Env::validate_exec_file` (env.rs): canonicalize, require a regular
file, extract the file name, require it to contain `firecracker`. -/
def Env.validate_exec_file (sys : Sys) (exec_file : String) :
    Except JErr (List String × String) :=
  match sys.canonicalize exec_file with
  | none => .error (.Canonicalize exec_file)
  | some p =>
    if ¬ (sys.is_file p = true) then .error (.NotAFile p)
    else
      match p.getLast? with
      | none => .error (.ExtractFileName p)
      | some n =>
        if ¬ (containsSub n "firecracker" = true) then .error (.ExecFileName n)
        else .ok (p, n)

/-- `Env::new` (env.rs): validate the instance id and the exec file,
canonicalize the chroot base (must be a directory) and extend it with
`<exec_basename>/<id>/root`, parse uid/gid as u32, read the flags, check
the parent cgroup path, parse the cgroup version as u8, run the cgroup
and resource-limit phases, and collect the MACVTAP names. -/
def Env.new (sys : Sys) (args : Args)
    (start_time_us start_time_cpu_us : Nat) : Except JErr Env :=
  match args.id with
  | none => .error (.ArgumentParsingMissingValue "id")
  | some id =>
  if ¬ (sys.validate_instance_id id = true) then .error .InvalidInstanceId
  else
  match args.exec_file with
  | none => .error (.ArgumentParsingMissingValue "exec-file")
  | some exec_file =>
  match Env.validate_exec_file sys exec_file with
  | .error e => .error e
  | .ok (exec_file_path, exec_file_name) =>
  match args.chroot_base_dir with
  | none => .error (.ArgumentParsingMissingValue "chroot-base-dir")
  | some chroot_base =>
  match sys.canonicalize chroot_base with
  | none => .error (.Canonicalize chroot_base)
  | some chroot_dir0 =>
  if ¬ (sys.is_dir chroot_dir0 = true) then .error (.NotADirectory chroot_dir0)
  else
  match args.uid with
  | none => .error (.ArgumentParsingMissingValue "uid")
  | some uid_str =>
  match rustParseUInt u32Bound uid_str with
  | .error _ => .error (.Uid uid_str)
  | .ok uid =>
  match args.gid with
  | none => .error (.ArgumentParsingMissingValue "gid")
  | some gid_str =>
  match rustParseUInt u32Bound gid_str with
  | .error _ => .error (.Gid gid_str)
  | .ok gid =>
  let parent_cgroup := match args.parent_cgroup with
    | some p => p
    | none => exec_file_name
  if hasBadComponent parent_cgroup = true then .error .CgroupInvalidParentPath
  else
  match args.cgroup_version with
  | none => .error (.ArgumentParsingMissingValue "cgroup-version")
  | some ver_str =>
  match rustParseUInt u8Bound ver_str with
  | .error _ => .error (.CgroupInvalidVersion ver_str)
  | .ok cgroup_ver =>
  match cgroupsStage sys cgroup_ver id parent_cgroup args.cgroup with
  | .error e => .error e
  | .ok cgroups =>
  match limitsStage args.resource_limit with
  | .error e => .error e
  | .ok resource_limits =>
  .ok { id := id,
        chroot_dir := chroot_dir0 ++ [exec_file_name, id, "root"],
        exec_file_path := exec_file_path,
        uid := uid, gid := gid,
        netns := args.netns,
        daemonize := args.daemonize,
        new_pid_ns := args.new_pid_ns,
        start_time_us := start_time_us,
        start_time_cpu_us := start_time_cpu_us,
        jailer_cpu_time_us := 0,
        extra_args := args.extra_args,
        cgroups := cgroups,
        resource_limits := resource_limits,
        macvtaps := (args.macvtap).getD [] }

theorem validate_ok_facts (sys : Sys) (ef : String) (p : List String) (n : String)
    (h : Env.validate_exec_file sys ef = .ok (p, n)) :
    sys.canonicalize ef = some p ∧ sys.is_file p = true ∧
      p.getLast? = some n ∧ containsSub n "firecracker" = true := by
  unfold Env.validate_exec_file at h
  rcases hc : sys.canonicalize ef with _ | q
  · simp [hc] at h
  simp only [hc] at h
  by_cases hf : sys.is_file q = true
  case neg => simp [hf] at h
  simp only [hf, not_true, if_false, ite_false, if_neg] at h
  rcases hl : q.getLast? with _ | m
  · simp [hl] at h
  simp only [hl] at h
  by_cases hct : containsSub m "firecracker" = true
  case neg => simp [hct] at h
  simp only [hct, not_true, ite_false, if_neg] at h
  simp only [reduceCtorEq, reduceIte, not_true_eq_false, if_false,
    Except.ok.injEq, Prod.mk.injEq] at h
  obtain ⟨rfl, rfl⟩ := h
  exact ⟨rfl, hf, hl, hct⟩

theorem env_new_ok_inversion (sys : Sys) (args : Args) (tu tc : Nat) (env : Env)
    (h : Env.new sys args tu tc = .ok env) :
    ∃ id ef p n cb d,
      args.id = some id ∧ sys.validate_instance_id id = true ∧
      args.exec_file = some ef ∧ Env.validate_exec_file sys ef = .ok (p, n) ∧
      args.chroot_base_dir = some cb ∧ sys.canonicalize cb = some d ∧
      sys.is_dir d = true ∧ env.id = id ∧ env.exec_file_path = p ∧
      env.chroot_dir = d ++ [n, id, "root"] := by
  unfold Env.new at h
  rcases h1 : args.id with _ | id
  · simp [h1] at h
  simp only [h1] at h
  by_cases h2 : sys.validate_instance_id id = true
  case neg => simp [h2] at h
  simp only [h2, not_true_eq_false, if_false] at h
  rcases h3 : args.exec_file with _ | ef
  · simp [h3] at h
  simp only [h3] at h
  rcases h4 : Env.validate_exec_file sys ef with e | ⟨p, n⟩
  · simp [h4] at h
  simp only [h4] at h
  rcases h5 : args.chroot_base_dir with _ | cb
  · simp [h5] at h
  simp only [h5] at h
  rcases h6 : sys.canonicalize cb with _ | d
  · simp [h6] at h
  simp only [h6] at h
  by_cases h7 : sys.is_dir d = true
  case neg => simp [h7] at h
  simp only [h7, not_true_eq_false, if_false] at h
  rcases h8 : args.uid with _ | uid_str
  · simp [h8] at h
  simp only [h8] at h
  rcases h9 : rustParseUInt u32Bound uid_str with msg | uid
  · simp [h9] at h
  simp only [h9] at h
  rcases h10 : args.gid with _ | gid_str
  · simp [h10] at h
  simp only [h10] at h
  rcases h11 : rustParseUInt u32Bound gid_str with msg | gid
  · simp [h11] at h
  simp only [h11] at h
  by_cases h12 : hasBadComponent (match args.parent_cgroup with
    | some p => p
    | none => n) = true
  case pos => simp [h12] at h
  simp only [h12, if_false, Bool.false_eq_true] at h
  rcases h13 : args.cgroup_version with _ | ver_str
  · simp [h13] at h
  simp only [h13] at h
  rcases h14 : rustParseUInt u8Bound ver_str with msg | ver
  · simp [h14] at h
  simp only [h14] at h
  rcases h15 : cgroupsStage sys ver id (match args.parent_cgroup with
    | some p => p
    | none => n) args.cgroup with e | cgl
  · simp [h15] at h
  simp only [h15] at h
  rcases h16 : limitsStage args.resource_limit with e | rl
  · simp [h16] at h
  simp only [h16, Except.ok.injEq] at h
  subst h
  exact ⟨id, ef, p, n, cb, d, rfl, h2, rfl, h4, rfl, h6, h7, rfl, rfl, rfl⟩

/-- An oracle in which `/tmp/firecracker` canonicalizes to a regular
file and `/` to the root directory; the external instance-id validator
and cgroup builder accept everything. -/
def demoSys : Sys :=
  { validate_instance_id := fun _ => true,
    canonicalize := fun s =>
      if s = "/tmp/firecracker" then some ["tmp", "firecracker"]
      else if s = "/" then some [] else none,
    is_file := fun p => p == ["tmp", "firecracker"],
    is_dir := fun p => p == [],
    cgroup_builder_new := fun _ => none,
    new_cgroup := fun _ _ _ _ => none }

/-- The CLI arguments of the env.rs happy-path test, parameterized by
the `--cgroup` values. -/
def demoArgs (cgs : List String) : Args :=
  { id := some "bd65600d-8669-4903-8a14-af88203add38",
    exec_file := some "/tmp/firecracker",
    chroot_base_dir := some "/",
    uid := some "1001", gid := some "1002",
    netns := some "zzzns", daemonize := true, new_pid_ns := true,
    parent_cgroup := none, cgroup_version := some "1",
    cgroup := some cgs,
    resource_limit := some ["no-file=1024", "fsize=1048575"],
    macvtap := none, extra_args := [] }

/-- The plan `Env.new` builds from `demoArgs`. -/
def demoEnv : Env :=
  { id := "bd65600d-8669-4903-8a14-af88203add38",
    chroot_dir := ["firecracker", "bd65600d-8669-4903-8a14-af88203add38", "root"],
    exec_file_path := ["tmp", "firecracker"],
    uid := 1001, gid := 1002,
    netns := some "zzzns", daemonize := true, new_pid_ns := true,
    start_time_us := 0, start_time_cpu_us := 0, jailer_cpu_time_us := 0,
    extra_args := [],
    cgroups := [("cpu.shares", "2"), ("cpuset.mems", "0")],
    resource_limits := { file_size := some 1048575, no_file := some 1024 },
    macvtaps := [] }

/-- C3: every successful `Env::new` yields
`chroot_dir = canonicalize(chroot_base) / exec_basename / id / "root"`,
and construction fails when the canonicalized chroot base is not a
directory. -/
theorem env_new_chroot_dir (sys : Sys) (args : Args) (tu tc : Nat) :
    (∀ env, Env.new sys args tu tc = .ok env →
      ∃ cb d n, args.chroot_base_dir = some cb ∧
        sys.canonicalize cb = some d ∧ sys.is_dir d = true ∧
        env.exec_file_path.getLast? = some n ∧
        env.chroot_dir = d ++ [n, env.id, "root"]) ∧
    (∀ cb d, args.chroot_base_dir = some cb → sys.canonicalize cb = some d →
      sys.is_dir d = false → ∀ env, Env.new sys args tu tc ≠ .ok env) := by
  constructor
  · intro env h
    obtain ⟨id, ef, p, n, cb, d, h1, h2, h3, h4, h5, h6, h7, hid, hp, hcd⟩ :=
      env_new_ok_inversion sys args tu tc env h
    obtain ⟨hc, hf, hl, hct⟩ := validate_ok_facts sys ef p n h4
    exact ⟨cb, d, n, h5, h6, h7, by rw [hp]; exact hl, by rw [hcd, hid]⟩
  · intro cb d hcb hc hdir env h
    obtain ⟨id, ef, p, n, cb2, d2, h1, h2, h3, h4, h5, h6, h7, _, _, _⟩ :=
      env_new_ok_inversion sys args tu tc env h
    rw [hcb] at h5
    obtain rfl : cb2 = cb := by injection h5.symm
    rw [hc] at h6
    obtain rfl : d2 = d := by injection h6.symm
    rw [h7] at hdir
    exact Bool.true_eq_false.mp hdir

theorem env_new_chroot_dir_witness :
    ∃ cb d n,
      (demoArgs ["cpu.shares=2", "cpuset.mems=0"]).chroot_base_dir = some cb ∧
      demoSys.canonicalize cb = some d ∧ demoSys.is_dir d = true ∧
      demoEnv.exec_file_path.getLast? = some n ∧
      demoEnv.chroot_dir = d ++ [n, demoEnv.id, "root"] :=
  (env_new_chroot_dir demoSys (demoArgs ["cpu.shares=2", "cpuset.mems=0"]) 0 0).1
    demoEnv (by decide)

/-- C4: `Env::new` succeeds only when the exec file canonicalizes, the
canonical path is a regular file and its basename contains
`firecracker`; the corresponding failures produce `Canonicalize`,
`NotAFile` and `ExecFileName`. -/
theorem validate_exec_file_spec (sys : Sys) :
    (∀ ef, sys.canonicalize ef = none →
      Env.validate_exec_file sys ef = .error (.Canonicalize ef)) ∧
    (∀ ef p, sys.canonicalize ef = some p → sys.is_file p = false →
      Env.validate_exec_file sys ef = .error (.NotAFile p)) ∧
    (∀ ef p n, sys.canonicalize ef = some p → sys.is_file p = true →
      p.getLast? = some n → containsSub n "firecracker" = false →
      Env.validate_exec_file sys ef = .error (.ExecFileName n)) ∧
    (∀ ef p n, Env.validate_exec_file sys ef = .ok (p, n) →
      sys.canonicalize ef = some p ∧ sys.is_file p = true ∧
      p.getLast? = some n ∧ containsSub n "firecracker" = true) ∧
    (∀ (args : Args) (tu tc : Nat) (env : Env),
      Env.new sys args tu tc = .ok env →
      ∃ ef pr, args.exec_file = some ef ∧
        Env.validate_exec_file sys ef = .ok pr) := by
  refine ⟨?_, ?_, ?_, ?_, ?_⟩
  · intro ef h
    simp [Env.validate_exec_file, h]
  · intro ef p h1 h2
    simp [Env.validate_exec_file, h1, h2]
  · intro ef p n h1 h2 h3 h4
    simp [Env.validate_exec_file, h1, h2, h3, h4]
  · intro ef p n h
    exact validate_ok_facts sys ef p n h
  · intro args tu tc env h
    obtain ⟨id, ef, p, n, cb, d, h1, h2, h3, h4, _⟩ :=
      env_new_ok_inversion sys args tu tc env h
    exact ⟨ef, (p, n), h3, h4⟩

theorem validate_exec_file_spec_witness :
    demoSys.canonicalize "/tmp/firecracker" = some ["tmp", "firecracker"] ∧
    demoSys.is_file ["tmp", "firecracker"] = true ∧
    (["tmp", "firecracker"] : List String).getLast? = some "firecracker" ∧
    containsSub "firecracker" "firecracker" = true :=
  (validate_exec_file_spec demoSys).2.2.2.1 "/tmp/firecracker"
    ["tmp", "firecracker"] "firecracker" (by rfl)

/-- C5 counterexample: `Env::new` does not split a `--cgroup` argument
once on `=`.  For `"a=b=c"` a single split yields the non-empty halves
`"a"` and `"b=c"`, and `"a"` has no bad path component, so under the
claim the argument would be accepted — but the code collects all `=`
splits, finds three parts, and rejects with `CgroupFormat`. -/
theorem cgroup_split_counterexample :
    splitOnce "a=b=c" '=' = some ("a", "b=c") ∧
    ("a" : String) ≠ "" ∧ ("b=c" : String) ≠ "" ∧
    hasBadComponent "a" = false ∧
    Env.new demoSys (demoArgs ["a=b=c"]) 0 0 =
      .error (.CgroupFormat "a=b=c") := by
  refine ⟨by decide, by decide, by decide, by decide, by decide⟩

/-- C5 (amended): `Env::new` splits each `--cgroup` argument at every
`=` and rejects with `CgroupFormat` unless that yields exactly two
parts with a non-empty second part; a surviving argument whose first
part contains a `.`, `..` or root component is rejected with
`CgroupInvalidFile`; `"cpuset.cpus="` is rejected while
`"cpuset.cpus=2-4,5.3"` and `"memory.swap.high=2"` are accepted. -/
theorem cgroup_arg_checks :
    (∀ cg, ((rsSplit cg '=').length ≠ 2 ∨ (rsSplit cg '=').getD 1 "" = "") →
      checkCgroupArg cg = .error (.CgroupFormat cg)) ∧
    (∀ cg, (rsSplit cg '=').length = 2 → (rsSplit cg '=').getD 1 "" ≠ "" →
      hasBadComponent ((rsSplit cg '=').getD 0 "") = true →
      checkCgroupArg cg = .error (.CgroupInvalidFile cg)) ∧
    (∀ cg file value, checkCgroupArg cg = .ok (file, value) →
      rsSplit cg '=' = [file, value] ∧ value ≠ "" ∧
      hasBadComponent file = false) ∧
    Env.new demoSys (demoArgs ["cpuset.cpus="]) 0 0 =
      .error (.CgroupFormat "cpuset.cpus=") ∧
    (Env.new demoSys (demoArgs ["cpuset.cpus=2-4,5.3"]) 0 0).isOk = true ∧
    (Env.new demoSys (demoArgs ["memory.swap.high=2"]) 0 0).isOk = true := by
  refine ⟨?_, ?_, ?_, by decide, by decide, by decide⟩
  · intro cg h
    simp only [checkCgroupArg, if_pos h]
  · intro cg h1 h2 h3
    rw [checkCgroupArg]
    rw [if_neg (by push_neg; exact ⟨h1, h2⟩)]
    rw [if_pos h3]
  · intro cg file value h
    rw [checkCgroupArg] at h
    by_cases h1 : (rsSplit cg '=').length ≠ 2 ∨ (rsSplit cg '=').getD 1 "" = ""
    · rw [if_pos h1] at h
      exact absurd h (by simp)
    · rw [if_neg h1] at h
      push_neg at h1
      by_cases h2 : hasBadComponent ((rsSplit cg '=').getD 0 "") = true
      · rw [if_pos h2] at h
        exact absurd h (by simp)
      · rw [if_neg h2] at h
        obtain ⟨a, b, hab⟩ := List.length_eq_two.1 h1.1
        have hga : (rsSplit cg '=').getD 0 "" = a := by rw [hab]; rfl
        have hgb : (rsSplit cg '=').getD 1 "" = b := by rw [hab]; rfl
        rw [Except.ok.injEq, Prod.mk.injEq] at h
        obtain ⟨hf, hv⟩ := h
        have hfa : file = a := by rw [← hf, hga]
        have hvb : value = b := by rw [← hv, hgb]
        subst hfa
        subst hvb
        rw [hga] at h2
        refine ⟨hab, ?_, ?_⟩
        · have hb2 := h1.2
          rw [hgb] at hb2
          exact hb2
        · cases hx : hasBadComponent file
          · rfl
          · exact absurd hx h2

theorem cgroup_arg_checks_witness :
    checkCgroupArg "cpuset.cpus" = .error (.CgroupFormat "cpuset.cpus") :=
  cgroup_arg_checks.1 "cpuset.cpus" (by decide)

/-- C10: in `parse_resource_limits` the value of a `name=value` argument
is parsed as u64 before the name is inspected: a bad value yields
`ResLimitValue` even for unknown names, and `ResLimitArgument` occurs
only when the value parses but the name is neither `fsize` nor
`no-file`. -/
theorem parse_resource_limits_order (arg name value : String)
    (rl : ResourceLimits) (rest : List String)
    (hsplit : splitOnce arg '=' = some (name, value)) :
    (∀ msg, rustParseUInt u64Bound value = .error msg →
      Env.parse_resource_limits rl (arg :: rest) =
        .error (.ResLimitValue value msg)) ∧
    (∀ v, rustParseUInt u64Bound value = .ok v →
      name ≠ FSIZE_ARG → name ≠ NO_FILE_ARG →
      Env.parse_resource_limits rl (arg :: rest) =
        .error (.ResLimitArgument name)) := by
  constructor
  · intro msg hmsg
    rw [Env.parse_resource_limits]
    simp only [hsplit, hmsg]
  · intro v hv hn1 hn2
    rw [Env.parse_resource_limits]
    simp only [hsplit, hv]
    rw [if_neg hn1, if_neg hn2]

theorem parse_resource_limits_order_witness :
    Env.parse_resource_limits {} ["foo=bar"] =
      .error (.ResLimitValue "bar" "invalid digit found in string") :=
  (parse_resource_limits_order "foo=bar" "foo" "bar" {} [] (by decide)).1
    "invalid digit found in string" (by decide)

/-- `PID_FILE_EXTENSION` of env.rs. -/
def PID_FILE_EXTENSION : String := ".pid"

/-- `Env::save_exec_file_pid` (env.rs) over an abstract file system
(path ↦ contents): open `<chroot_exec_file>.pid` write-only with
create-new semantics — failing with `FileOpen` when the file already
exists — and write the PID with Rust's `Display` for i32 (decimal). -/
def save_exec_file_pid (fs : List (String × String)) (pid : Int)
    (chroot_exec_file : String) : Except JErr (List (String × String)) :=
  let pid_file_path := chroot_exec_file ++ PID_FILE_EXTENSION
  match fs.lookup pid_file_path with
  | some _ => .error (.FileOpen pid_file_path)
  | none => .ok ((pid_file_path, toString pid) :: fs)

/-- Outcome of `Env::exec_into_new_pid_ns` in the process that called
`clone`. -/
inductive PidNsOutcome where
  | childExec
  | parentExit (status : Nat) (fs : List (String × String))
  | failed (e : JErr) (fs : List (String × String))
deriving DecidableEq, Repr

/-- `Env::exec_into_new_pid_ns` (env.rs), with the result of the raw
`clone(CLONE_NEWPID)` syscall supplied as `cloneRet` (negative values
are mapped to `Error::Clone` by `SyscallReturnCode`).  The child
(return 0) execs; the parent writes `<chroot_exec_file>.pid` and then
terminates immediately via `libc::exit(0)` — modelled as the terminal
`parentExit 0` outcome, with no continuation (no unwinding). -/
def exec_into_new_pid_ns (fs : List (String × String)) (cloneRet : Int)
    (chroot_exec_file : String) : PidNsOutcome :=
  if cloneRet < 0 then .failed .Clone fs
  else if cloneRet = 0 then .childExec
  else
    match save_exec_file_pid fs cloneRet chroot_exec_file with
    | .ok fs2 => .parentExit 0 fs2
    | .error e => .failed e fs

/-- C2: when `clone` returns a child pid > 0, the parent creates
`<chroot_exec_file>.pid` (failing with `FileOpen` if it already
exists), writes the pid in decimal ASCII, and exits with status 0 by
immediate termination. -/
theorem exec_pid_ns_parent (fs : List (String × String)) (pid : Int)
    (file : String) (hpid : 0 < pid) :
    (fs.lookup (file ++ PID_FILE_EXTENSION) = none →
      exec_into_new_pid_ns fs pid file =
        .parentExit 0 ((file ++ PID_FILE_EXTENSION, toString pid) :: fs)) ∧
    (∀ c, fs.lookup (file ++ PID_FILE_EXTENSION) = some c →
      exec_into_new_pid_ns fs pid file =
        .failed (.FileOpen (file ++ PID_FILE_EXTENSION)) fs) := by
  have h1 : ¬ pid < 0 := by omega
  have h2 : ¬ pid = 0 := by omega
  constructor
  · intro hnew
    rw [exec_into_new_pid_ns, if_neg h1, if_neg h2, save_exec_file_pid]
    simp only [hnew]
  · intro c hold
    rw [exec_into_new_pid_ns, if_neg h1, if_neg h2, save_exec_file_pid]
    simp only [hold]

theorem exec_pid_ns_parent_witness :
    exec_into_new_pid_ns [] 1 "file" =
      .parentExit 0 [("file.pid", "1")] := by
  have h := (exec_pid_ns_parent [] 1 "file" (by decide)).1 (by decide)
  simpa using h

/-- An `OsString`: either valid Unicode or not.  On Linux a `PathBuf`
holds arbitrary bytes; `into_string()` succeeds exactly on the Unicode
case. -/
inductive OsStringM where
  | unicode (s : String)
  | nonUnicode (bytes : List Nat)
deriving DecidableEq, Repr

/-- `to_cstring` (main.rs): `path → OsString → String` (failing with
`OsStringParsing` on non-Unicode data) then `CString::new` (failing
with `CStringParsing` on an interior NUL byte). -/
def to_cstring (p : OsStringM) : Except JErr String :=
  match p with
  | .nonUnicode b => .error (.OsStringParsing b)
  | .unicode s =>
    if s.toList.contains (Char.ofNat 0) then .error .CStringParsing
    else .ok s

/-- The reverse direction `&CStr → str → PathBuf` used by the spec's
round-trip property. -/
def cstr_to_pathbuf (content : String) : OsStringM := .unicode content

/-- C9: for Unicode paths without interior NUL, `to_cstring` succeeds
and `CStr → str → PathBuf` restores the original path; an interior NUL
gives `CStringParsing` and non-Unicode data gives `OsStringParsing`. -/
theorem to_cstring_roundtrip :
    (∀ s, s.toList.contains (Char.ofNat 0) = false →
      to_cstring (.unicode s) = .ok s) ∧
    (∀ s c, to_cstring (.unicode s) = .ok c →
      cstr_to_pathbuf c = .unicode s) ∧
    (∀ s, s.toList.contains (Char.ofNat 0) = true →
      to_cstring (.unicode s) = .error .CStringParsing) ∧
    (∀ b, to_cstring (.nonUnicode b) = .error (.OsStringParsing b)) := by
  refine ⟨?_, ?_, ?_, ?_⟩
  · intro s h
    rw [to_cstring, if_neg (by rw [h]; exact Bool.false_ne_true)]
  · intro s c h
    rw [to_cstring] at h
    by_cases hnul : s.toList.contains (Char.ofNat 0) = true
    · rw [if_pos hnul] at h
      exact absurd h (by simp)
    · rw [if_neg hnul] at h
      rw [Except.ok.injEq] at h
      rw [cstr_to_pathbuf, h]
  · intro s h
    rw [to_cstring, if_pos h]
  · intro b
    rfl

theorem to_cstring_roundtrip_witness :
    to_cstring (.unicode "some_path") = .ok "some_path" :=
  to_cstring_roundtrip.1 "some_path" (by decide)

/-- The TAP error enumeration (tap.rs). -/
inductive TapError where
  | CreateTap
  | InvalidIfname
  | InvalidTapDevType
  | IoctlError
  | OpenTapDev
  | OpenTun
  | StatTapDev
deriving DecidableEq, Repr

def IFACE_NAME_MAX_LEN : Nat := 16

/-- The TAP handle (tap.rs): the stored interface name bytes (the
`[u8; IFACE_NAME_MAX_LEN]` buffer).  The wrapped file descriptor is not
modelled. -/
structure Tap where
  if_name : List Nat
deriving DecidableEq, Repr

/-- External effects of the tap module: the MACVTAP sysfs lookup, the
device-node open/stat, opening `/dev/net/tun` and the `TUNSETIFF`
ioctl, which takes the 16-byte request name and returns the ioctl's
`ifrn_name` buffer (`none` models an ioctl failure). -/
structure TapWorld where
  get_device_node : List Nat → Option (List String)
  open_ok : List String → Bool
  stat_ok : List String → Bool
  is_char_device : List String → Bool
  open_tun_ok : Bool
  tunsetiff : List Nat → Option (List Nat)

/-- `build_terminated_if_name` (tap.rs): reject names of 16 bytes or
more, otherwise pad with NUL bytes to exactly 16. -/
def build_terminated_if_name (if_name : List Nat) :
    Except TapError (List Nat) :=
  if IFACE_NAME_MAX_LEN ≤ if_name.length then .error .InvalidIfname
  else .ok (if_name ++ List.replicate (IFACE_NAME_MAX_LEN - if_name.length) 0)

/-- `Tap::macvtap_open_named` (tap.rs): open the device node, stat it,
require a character device, then check the name length and store the
NUL-padded name. -/
def Tap.macvtap_open_named (w : TapWorld) (if_name : List Nat)
    (dev_path : List String) : Except TapError Tap :=
  if ¬ (w.open_ok dev_path = true) then .error .OpenTapDev
  else if ¬ (w.stat_ok dev_path = true) then .error .StatTapDev
  else if ¬ (w.is_char_device dev_path = true) then .error .InvalidTapDevType
  else if IFACE_NAME_MAX_LEN ≤ if_name.length then .error .InvalidIfname
  else .ok ⟨if_name ++ List.replicate (IFACE_NAME_MAX_LEN - if_name.length) 0⟩

/-- `Tap::tap_open_named` (tap.rs): build the NUL-terminated name, open
`/dev/net/tun`, issue `TUNSETIFF` and store the name the kernel wrote
back into the request structure. -/
def Tap.tap_open_named (w : TapWorld) (if_name : List Nat) :
    Except TapError Tap :=
  match build_terminated_if_name if_name with
  | .error e => .error e
  | .ok tname =>
    if ¬ (w.open_tun_ok = true) then .error .OpenTun
    else
      match w.tunsetiff tname with
      | none => .error .IoctlError
      | some kname => .ok ⟨kname⟩

/-- `Tap::open_named` (tap.rs): the MACVTAP path when the sysfs lookup
resolves a device node, the TUN/TAP path otherwise. -/
def Tap.open_named (w : TapWorld) (if_name : List Nat) :
    Except TapError Tap :=
  match w.get_device_node if_name with
  | some path => Tap.macvtap_open_named w if_name path
  | none => Tap.tap_open_named w if_name

/-- C6: interface names of 16 bytes or more are rejected with
`InvalidIfname` on both the TAP and the MACVTAP path; a 15-byte name
passes the length check; and every constructed `Tap` stores a 16-byte
NUL-padded name buffer (on the TAP path, granted the kernel contract
that `TUNSETIFF` returns a 16-byte buffer). -/
theorem tap_ifname_checks :
    (∀ (w : TapWorld) (n : List Nat), IFACE_NAME_MAX_LEN ≤ n.length →
      w.get_device_node n = none →
      Tap.open_named w n = .error .InvalidIfname) ∧
    (∀ (w : TapWorld) (n : List Nat) path,
      w.get_device_node n = some path → w.open_ok path = true →
      w.stat_ok path = true → w.is_char_device path = true →
      IFACE_NAME_MAX_LEN ≤ n.length →
      Tap.open_named w n = .error .InvalidIfname) ∧
    (∀ n : List Nat, n.length = 15 →
      build_terminated_if_name n = .ok (n ++ [0])) ∧
    (∀ (w : TapWorld) (n : List Nat) (t : Tap),
      (∀ req res, w.tunsetiff req = some res → res.length = 16) →
      Tap.open_named w n = .ok t → t.if_name.length = 16) ∧
    (∀ (w : TapWorld) (n : List Nat) path (t : Tap),
      w.get_device_node n = some path → Tap.open_named w n = .ok t →
      t.if_name = n ++ List.replicate (IFACE_NAME_MAX_LEN - n.length) 0) := by
  refine ⟨?_, ?_, ?_, ?_, ?_⟩
  · intro w n hlen hnode
    rw [Tap.open_named]
    simp only [hnode]
    rw [Tap.tap_open_named, build_terminated_if_name, if_pos hlen]
  · intro w n path hnode ho hs hc hlen
    rw [Tap.open_named]
    simp only [hnode]
    rw [Tap.macvtap_open_named, if_neg (by rw [ho]; exact not_not_intro rfl),
      if_neg (by rw [hs]; exact not_not_intro rfl),
      if_neg (by rw [hc]; exact not_not_intro rfl), if_pos hlen]
  · intro n hlen
    rw [build_terminated_if_name, IFACE_NAME_MAX_LEN, hlen]
    rw [if_neg (by omega)]
    rfl
  · intro w n t hkernel h
    rw [Tap.open_named] at h
    rcases hnode : w.get_device_node n with _ | path
    · simp only [hnode] at h
      rw [Tap.tap_open_named] at h
      rcases hb : build_terminated_if_name n with e | tname
      · simp [hb] at h
      simp only [hb] at h
      by_cases ht : w.open_tun_ok = true
      case neg => simp [ht] at h
      simp only [ht, not_true_eq_false, if_false] at h
      rcases hio : w.tunsetiff tname with _ | kname
      · simp [hio] at h
      simp only [hio, Except.ok.injEq] at h
      subst h
      exact hkernel tname kname hio
    · simp only [hnode] at h
      rw [Tap.macvtap_open_named] at h
      by_cases h1 : w.open_ok path = true
      case neg => simp [h1] at h
      by_cases h2 : w.stat_ok path = true
      case neg => simp [h1, h2] at h
      by_cases h3 : w.is_char_device path = true
      case neg => simp [h1, h2, h3] at h
      by_cases h4 : IFACE_NAME_MAX_LEN ≤ n.length
      case pos => simp [h1, h2, h3, h4] at h
      simp only [h1, h2, h3, h4, not_true_eq_false, if_false, not_false_eq_true,
        if_true, if_neg, Except.ok.injEq] at h
      subst h
      simp only [List.length_append, List.length_replicate]
      rw [IFACE_NAME_MAX_LEN] at h4 ⊢
      omega
  · intro w n path t hnode h
    rw [Tap.open_named] at h
    simp only [hnode] at h
    rw [Tap.macvtap_open_named] at h
    by_cases h1 : w.open_ok path = true
    case neg => simp [h1] at h
    by_cases h2 : w.stat_ok path = true
    case neg => simp [h1, h2] at h
    by_cases h3 : w.is_char_device path = true
    case neg => simp [h1, h2, h3] at h
    by_cases h4 : IFACE_NAME_MAX_LEN ≤ n.length
    case pos => simp [h1, h2, h3, h4] at h
    simp only [h1, h2, h3, h4, not_true_eq_false, if_false, not_false_eq_true,
      if_true, if_neg, Except.ok.injEq] at h
    rw [← h]

/-- A tap world with one known MACVTAP (`"vtap0"`, i.e. bytes
118 116 97 112 48) whose node is a character device. -/
def demoTapWorld : TapWorld :=
  { get_device_node := fun n =>
      if n = [118, 116, 97, 112, 48] then some ["dev", "tap5"] else none,
    open_ok := fun _ => true,
    stat_ok := fun _ => true,
    is_char_device := fun _ => true,
    open_tun_ok := true,
    tunsetiff := fun req => some req }

theorem tap_ifname_checks_witness :
    Tap.open_named demoTapWorld
        [97, 49, 50, 51, 52, 53, 54, 55, 56, 57, 97, 98, 99, 100, 101, 102] =
      .error .InvalidIfname :=
  tap_ifname_checks.1 demoTapWorld
    [97, 49, 50, 51, 52, 53, 54, 55, 56, 57, 97, 98, 99, 100, 101, 102]
    (by decide) (by decide)

/-- Whether a rendered message contains a double-quote character. -/
def hasQuote (s : String) : Bool :=
  s.data.any (fun c => c == '"')

/-- Rust's `.replace('\x22', "")` on the formatted message: drop every
double-quote character. -/
def stripQuotes (s : String) : String :=
  String.mk (s.data.filter (fun c => c != '"'))

/-- Rust `Debug` formatting of a `PathBuf` holding a plain path:
the path surrounded by double quotes. -/
def dbgPath (p : String) : String := "\"" ++ p ++ "\""

/-- The path-carrying variants of main.rs `enum Error`, with the
`io::Error` payload rendered as a string. -/
inductive ErrorMsg where
  | Canonicalize (p e : String)
  | CgroupInheritFromParent (p f : String)
  | ChangeFileOwner (p e : String)
  | Chmod (p e : String)
  | Copy (f p e : String)
  | CreateDir (p e : String)
  | ExtractFileName (p : String)
  | FileOpen (p e : String)
  | MacVTapMknod (p e : String)
  | MissingParent (p : String)
  | NotAFile (p : String)
  | NotADirectory (p : String)
  | OsStringParsing (p : String)
  | ReadLine (p e : String)
  | ReadToString (p e : String)
  | Write (p e : String)
deriving DecidableEq, Repr

/-- The `Display` impl of main.rs for these variants.  Every arm that
formats its path with `Debug` inside a `format!` and then strips the
quotes is modelled with `stripQuotes`; the `Chmod` and
`ChangeFileOwner` arms write the `Debug`-formatted path directly,
without stripping. -/
def ErrorMsg.display : ErrorMsg → String
  | .Canonicalize p e =>
    stripQuotes ("Failed to canonicalize path " ++ dbgPath p ++ ": " ++ e)
  | .CgroupInheritFromParent p f =>
    stripQuotes ("Failed to inherit cgroups configurations from file " ++ f
      ++ " in path " ++ dbgPath p)
  | .ChangeFileOwner p e =>
    "Failed to change owner for " ++ dbgPath p ++ ": " ++ e
  | .Chmod p e =>
    "Failed to change permissions on " ++ dbgPath p ++ ": " ++ e
  | .Copy f p e =>
    stripQuotes ("Failed to copy " ++ dbgPath f ++ " to " ++ dbgPath p
      ++ ": " ++ e)
  | .CreateDir p e =>
    stripQuotes ("Failed to create directory " ++ dbgPath p ++ ": " ++ e)
  | .ExtractFileName p =>
    stripQuotes ("Failed to extract filename from path " ++ dbgPath p)
  | .FileOpen p e =>
    stripQuotes ("Failed to open file " ++ dbgPath p ++ ": " ++ e)
  | .MacVTapMknod p e =>
    stripQuotes ("Failed to create " ++ dbgPath p
      ++ " via mknod inside the jail: " ++ e)
  | .MissingParent p =>
    stripQuotes ("File " ++ dbgPath p ++ " doesn't have a parent")
  | .NotAFile p => stripQuotes (dbgPath p ++ " is not a file")
  | .NotADirectory p => stripQuotes (dbgPath p ++ " is not a directory")
  | .OsStringParsing p =>
    stripQuotes ("Failed to parse path " ++ dbgPath p ++ " into an OsString")
  | .ReadLine p e =>
    stripQuotes ("Failed to read line from " ++ dbgPath p ++ ": " ++ e)
  | .ReadToString p e =>
    stripQuotes ("Failed to read file " ++ dbgPath p
      ++ " into a string: " ++ e)
  | .Write p e =>
    stripQuotes ("Failed to write to " ++ dbgPath p ++ ": " ++ e)

/-- The two variants whose arm writes the `Debug`-quoted path without
stripping the quotes. -/
def isDebugQuoted : ErrorMsg → Bool
  | .Chmod _ _ => true
  | .ChangeFileOwner _ _ => true
  | _ => false

theorem any_quote_filter (l : List Char) :
    ((l.filter (fun c => c != '"')).any (fun c => c == '"')) = false := by
  induction l with
  | nil => rfl
  | cons a t ih =>
    by_cases h : a = '"'
    · simp [List.filter_cons, h, ih]
    · simp [List.filter_cons, h, ih]

theorem hasQuote_stripQuotes (s : String) :
    hasQuote (stripQuotes s) = false :=
  any_quote_filter s.data

/-- C8 counterexample: the `Chmod` rendering keeps the `Debug` quotes
around the path (this is the exact string main.rs's own
`test_error_display` expects), so its message does contain quoting
decorations. -/
theorem chmod_display_quotes_counterexample :
    ErrorMsg.display (.Chmod "/foo" "No such file or directory (os error 2)") =
      "Failed to change permissions on \"/foo\": No such file or directory (os error 2)" ∧
    hasQuote (ErrorMsg.display
      (.Chmod "/foo" "No such file or directory (os error 2)")) = true := by
  exact ⟨by decide, by decide⟩

/-- C8 (amended): every path-carrying variant renders as
`<action>: <detail>` with the path printed without quoting decorations,
except `Chmod` and `ChangeFileOwner`, which print the `Debug`-formatted
path surrounded by double quotes. -/
theorem error_display_quoting :
    (∀ p e, ErrorMsg.display (.Chmod p e) =
      "Failed to change permissions on " ++ dbgPath p ++ ": " ++ e ∧
      hasQuote (ErrorMsg.display (.Chmod p e)) = true) ∧
    (∀ p e, ErrorMsg.display (.ChangeFileOwner p e) =
      "Failed to change owner for " ++ dbgPath p ++ ": " ++ e ∧
      hasQuote (ErrorMsg.display (.ChangeFileOwner p e)) = true) ∧
    (∀ m, isDebugQuoted m = false → hasQuote (ErrorMsg.display m) = false) := by
  refine ⟨?_, ?_, ?_⟩
  · intro p e
    refine ⟨rfl, ?_⟩
    simp [hasQuote, ErrorMsg.display, dbgPath, String.data_append]
  · intro p e
    refine ⟨rfl, ?_⟩
    simp [hasQuote, ErrorMsg.display, dbgPath, String.data_append]
  · intro m h
    cases m <;> first
      | exact hasQuote_stripQuotes _
      | simp [isDebugQuoted] at h

theorem error_display_quoting_witness :
    hasQuote (ErrorMsg.display (.Canonicalize "/foo" "err")) = false :=
  error_display_quoting.2.2 (.Canonicalize "/foo" "err") (by decide)
